import Mathlib

/-!
Verification of the privilege-store and daemon-startup specification of
security-manager against the repository's sources.

The repository provides `src/common/include/privilege_db.h` (the query
catalog of the Privilege Store as literal SQL, the class's exception
declarations and per-method `@exception` documentation),
`src/server/main/server-main.cpp` (daemon entry point and service
registration) and a service header.  The bodies of the `PrivilegeDb`
methods are not part of the sources, so those bodies are modelled from the
specification, while the relational semantics of each operation is taken
from the SQL text that *is* in the header.
-/

/-- Error kinds of the Privilege Store.  `privilege_db.h` declares exactly
`IOError` and `InternalError` inside `PrivilegeDb::Exception`
(lines 122–128).  `ConstraintError` is a name used by the specification's
error taxonomy only; it has no counterpart in the header and is included
here so that statements about it can be expressed. -/
inductive ErrKind where
  | IOError
  | InternalError
  | ConstraintError
deriving DecidableEq, Repr

/-- The relational state of the Privilege Store, with one list of rows per
relation named in the query catalog of `privilege_db.h`:
`app_privilege_view` rows are `(app_name, uid, privilege_name)`,
`app_pkg_view` rows are `(app_name, pkg_name, uid)`,
`privilege_group_view` rows are `(privilege_name, group_name)`.
Rows are kept in insertion order (SQLite rowid order). -/
structure DBState where
  appPrivilegeRows : List (String × Nat × String)
  appPkgRows : List (String × String × Nat)
  privilegeGroupRows : List (String × String)
deriving DecidableEq, Repr

/-- Result shape of a `SELECT DISTINCT … ORDER BY` column query: the
selected values with duplicates removed, in ascending order. -/
def sqlDistinctOrderBy (l : List String) : List String :=
  (l.insertionSort (· ≤ ·)).dedup

/-- `PrivilegeDb::GetAppPrivileges` per the `EGetAppPrivileges` query of
`privilege_db.h` line 76: `SELECT DISTINCT privilege_name FROM
app_privilege_view WHERE app_name=? AND uid=? ORDER BY privilege_name`. -/
def GetAppPrivileges (s : DBState) (appId : String) (uid : Nat) : List String :=
  sqlDistinctOrderBy
    ((s.appPrivilegeRows.filter
        (fun r => decide (r.1 = appId ∧ r.2.1 = uid))).map (fun r => r.2.2))

/-- Effect on the relation of the `ERemoveAppPrivileges` query of
`privilege_db.h` line 80: `DELETE FROM app_privilege_view WHERE app_name=?
AND uid=?`. -/
def deleteAppPrivilegeRows (s : DBState) (appId : String) (uid : Nat) : DBState :=
  { s with appPrivilegeRows :=
      s.appPrivilegeRows.filter (fun r => !decide (r.1 = appId ∧ r.2.1 = uid)) }

/-- Modelled from the spec: the body of `PrivilegeDb::RemoveAppPrivileges`
is not in the sources.  Per the spec it "deletes all privilege assignments
for the pair"; the deletion itself is the `ERemoveAppPrivileges` query
from the header, and a SQL `DELETE` that matches no rows is not an error,
so the operation succeeds on any state. -/
def RemoveAppPrivileges (s : DBState) (appId : String) (uid : Nat) :
    Except ErrKind DBState :=
  .ok (deleteAppPrivilegeRows s appId uid)

/-- Effect of running the `EAddAppPrivileges` query of `privilege_db.h`
line 79 (`INSERT INTO app_privilege_view (app_name, uid, privilege_name)
VALUES (?, ?, ?)`) once per element of `privs`. -/
def insertAppPrivilegeRows (s : DBState) (appId : String) (uid : Nat)
    (privs : List String) : DBState :=
  { s with appPrivilegeRows :=
      s.appPrivilegeRows ++ privs.map (fun p => (appId, uid, p)) }

/-- Modelled from the spec: the body of `PrivilegeDb::UpdateAppPrivileges`
is not in the sources.  Per the spec it is a full replace implemented as
delete-then-bulk-insert: the `ERemoveAppPrivileges` deletion followed by
one `EAddAppPrivileges` insertion per supplied privilege. -/
def UpdateAppPrivileges (s : DBState) (appId : String) (uid : Nat)
    (privs : List String) : DBState :=
  insertAppPrivilegeRows (deleteAppPrivilegeRows s appId uid) appId uid privs

/-- Whether an application row for `(appId, uid)` is present in
`app_pkg_view`; per the data-model invariant an application name is unique
within a user's namespace, so this is what the uniqueness constraint
behind the `EAddApplication` insert checks. -/
def appExists (s : DBState) (appId : String) (uid : Nat) : Bool :=
  s.appPkgRows.any (fun r => decide (r.1 = appId ∧ r.2.2 = uid))

/-- Modelled from the spec: the body of `PrivilegeDb::AddApplication` is
not in the sources.  It runs the `EAddApplication` query of
`privilege_db.h` line 77 (`INSERT INTO app_pkg_view (app_name, pkg_name,
uid) VALUES (?, ?, ?)`); inserting a duplicate `(app_name, uid)` violates
the uniqueness invariant and, per the header's `@exception` documentation
for this method (line 193), the failure surfaces as `InternalError`. -/
def AddApplication (s : DBState) (appId pkgId : String) (uid : Nat) :
    Except ErrKind DBState :=
  if appExists s appId uid then .error ErrKind.InternalError
  else .ok { s with appPkgRows := s.appPkgRows ++ [(appId, pkgId, uid)] }

/-- `PrivilegeDb::GetAppPkgId` per the `EGetPkgId` query of
`privilege_db.h` line 82: `SELECT pkg_name FROM app_pkg_view WHERE
app_name = ?`.  The query filters by application name only (no `uid`) and
has no `ORDER BY`, so a single `Step` yields the first matching row in
rowid (insertion) order; `none` models the not-found return `false`. -/
def GetAppPkgId (s : DBState) (appId : String) : Option String :=
  (s.appPkgRows.find? (fun r => decide (r.1 = appId))).map (fun r => r.2.1)

/-- Modelled from the spec: the `pkg` table queried by `EPkgIdExists`
(`SELECT * FROM pkg WHERE name=?`, `privilege_db.h` line 81) is not in the
sources; per the spec's data model a package "is implicitly present as
long as at least one of its applications exists for at least one user",
so existence is derived from the `app_pkg_view` rows. -/
def PkgIdExists (s : DBState) (pkgId : String) : Bool :=
  s.appPkgRows.any (fun r => decide (r.2.1 = pkgId))

/-- Modelled from the spec: the body of `PrivilegeDb::RemoveApplication`
is not in the sources.  Per the spec it "deletes the application" (the
`ERemoveApplication` query of `privilege_db.h` line 78: `DELETE FROM
app_pkg_view WHERE app_name=? AND uid=?`) and reports whether "any other
application of the same package still exists for any user"
(`PkgIdExists` on the removed application's own package, evaluated after
the deletion).  The returned flag is `packageStillExists` in the spec's
orientation; the header's out-parameter `pkgIdIsNoMore` is its negation.
If the application does not exist the state is unchanged and the flag is
`false`. -/
def RemoveApplication (s : DBState) (appId : String) (uid : Nat) :
    DBState × Bool :=
  match (s.appPkgRows.find? (fun r => decide (r.1 = appId ∧ r.2.2 = uid))).map
      (fun r => r.2.1) with
  | none => (s, false)
  | some pkg =>
      let rows := s.appPkgRows.filter (fun r => !decide (r.1 = appId ∧ r.2.2 = uid))
      let s' : DBState := { s with appPkgRows := rows }
      (s', PkgIdExists s' pkg)

/-- A Privilege Store connection as seen through the transaction bracket:
the last committed state, and the pending in-transaction state when a
transaction is open. -/
structure DbConn where
  committed : DBState
  pending : Option DBState
deriving DecidableEq, Repr

/-- The state a reader of the connection observes: the pending state
inside an open transaction, the committed state otherwise. -/
def DbConn.observable (c : DbConn) : DBState :=
  c.pending.getD c.committed

/-- Modelled from the spec: the body of `PrivilegeDb::BeginTransaction`
(`privilege_db.h` line 139) is not in the sources; it opens the standard
SQL transaction bracket, so subsequent writes accumulate in a pending
state initialised from the committed one. -/
def BeginTransaction (c : DbConn) : DbConn :=
  { c with pending := some c.committed }

/-- Modelled from the spec: the body of `PrivilegeDb::CommitTransaction`
(`privilege_db.h` line 146) is not in the sources; committing makes the
pending state the committed one. -/
def CommitTransaction (c : DbConn) : DbConn :=
  { committed := c.observable, pending := none }

/-- Modelled from the spec: the body of `PrivilegeDb::RollbackTransaction`
(`privilege_db.h` line 153) is not in the sources; rolling back discards
the pending state, restoring the committed one. -/
def RollbackTransaction (c : DbConn) : DbConn :=
  { c with pending := none }

/-- Run one write statement against the connection: inside an open
transaction it updates the pending state, standalone it is implicitly
atomic and commits directly. -/
def applyWrite (f : DBState → DBState) (c : DbConn) : DbConn :=
  match c.pending with
  | some s => { c with pending := some (f s) }
  | none => { c with committed := f c.committed }

/-- The methods declared by class `PrivilegeDb` in `privilege_db.h`,
`ctor` being the constructor. -/
inductive Method where
  | ctor
  | beginTransaction
  | commitTransaction
  | rollbackTransaction
  | getAppPkgId
  | getPkgPrivileges
  | getAppPrivileges
  | addApplication
  | removeApplication
  | removeAppPrivileges
  | updateAppPrivileges
  | getPrivilegeGroups
  | getUserApps
  | getAppIdsForPkgId
deriving DecidableEq, Fintype, Repr

/-- Transcription of the `@exception` documentation of `privilege_db.h`:
the constructor is documented to raise `IOError` "on problems with
database access" (line 68), and every other method is documented to raise
`InternalError` "on internal error". -/
def declaredExceptions : Method → List ErrKind
  | .ctor => [ErrKind.IOError]
  | .beginTransaction => [ErrKind.InternalError]
  | .commitTransaction => [ErrKind.InternalError]
  | .rollbackTransaction => [ErrKind.InternalError]
  | .getAppPkgId => [ErrKind.InternalError]
  | .getPkgPrivileges => [ErrKind.InternalError]
  | .getAppPrivileges => [ErrKind.InternalError]
  | .addApplication => [ErrKind.InternalError]
  | .removeApplication => [ErrKind.InternalError]
  | .removeAppPrivileges => [ErrKind.InternalError]
  | .updateAppPrivileges => [ErrKind.InternalError]
  | .getPrivilegeGroups => [ErrKind.InternalError]
  | .getUserApps => [ErrKind.InternalError]
  | .getAppIdsForPkgId => [ErrKind.InternalError]

/-- Modelled from the spec: the constructor body of `PrivilegeDb` is not
in the sources.  Construction opens the backing database file at
`PRIVILEGE_DB_PATH`; absence or unreadability of that file is the one
condition that raises `IOError`. -/
def constructPrivilegeDb (fileOk : Bool) (loaded : DBState) :
    Except ErrKind DBState :=
  if fileOk then .ok loaded else .error ErrKind.IOError

/-- Outcome of the environment-dependent steps of `main`
(`server-main.cpp` lines 65–98): whether the `FileLocker` constructor
acquires the exclusive startup lock (it throws
`FileLocker::Exception::Base` otherwise), whether `pthread_sigmask`
succeeds, and whether `REGISTER_SOCKET_SERVICE` registers the service.
`MainLoop` returning (clean shutdown on the termination signal) is the
remaining, always-final step. -/
structure MainEnv where
  lockOk : Bool
  sigmaskOk : Bool
  registerOk : Bool
deriving DecidableEq, Fintype, Repr

/-- Exit code of `main` per the control flow of `server-main.cpp`:
a `FileLocker` exception is caught and returns `EXIT_FAILURE` (1, line
94); a failing `pthread_sigmask` returns 1 (line 80); a failed service
registration returns `EXIT_FAILURE` (line 88); otherwise `MainLoop` runs
until shutdown and `main` returns 0 (line 97). -/
def mainExitCode (env : MainEnv) : Nat :=
  if !env.lockOk then 1
  else if !env.sigmaskOk then 1
  else if !env.registerOk then 1
  else 0

/-- The kinds of C++ exception distinguished by the catch clauses of
`registerSocketService` (`server-main.cpp` lines 50–59):
`SecurityManager::Exception`, `std::exception`, and anything else. -/
inductive ExnKind where
  | smException
  | stdException
  | otherException
deriving DecidableEq, Fintype, Repr

/-- Which exceptions the handler chain of `registerSocketService`
catches: `catch (const SecurityManager::Exception &)`,
`catch (const std::exception &)`, `catch (...)` — every kind. -/
def caughtBy : ExnKind → Bool
  | .smException => true
  | .stdException => true
  | .otherException => true

/-- The faults a run of `registerSocketService` may encounter: an
exception thrown by `new T()`, by `service->Create()`, or by
`manager.RegisterSocketService(service)`; `none` means that step
succeeds.  Later steps run only when the earlier ones succeeded. -/
structure RegisterEnv where
  ctorFault : Option ExnKind
  createFault : Option ExnKind
  registerFault : Option ExnKind
deriving DecidableEq, Fintype, Repr

/-- Observable outcome of `registerSocketService`: `escaped` is the
exception propagating out of the function if any, `returnValue` the value
returned when it returns normally, `serviceAllocated` whether `new T()`
completed, and `serviceDeleted` whether `delete service` ran. -/
structure RegisterOutcome where
  escaped : Option ExnKind
  returnValue : Option Bool
  serviceAllocated : Bool
  serviceDeleted : Bool
deriving DecidableEq, Repr

/-- `registerSocketService` per `server-main.cpp` lines 41–63: `service`
starts `NULL`; `new T()` (on throw, `service` stays `NULL`), then
`Create()`, then `RegisterSocketService`, then `return true`.  A thrown
exception that a catch clause accepts falls through to
`if (service) delete service; return false`; one that no clause accepts
would propagate out. -/
def registerSocketService (env : RegisterEnv) : RegisterOutcome :=
  match env.ctorFault with
  | some e =>
      if caughtBy e then
        { escaped := none, returnValue := some false,
          serviceAllocated := false, serviceDeleted := false }
      else
        { escaped := some e, returnValue := none,
          serviceAllocated := false, serviceDeleted := false }
  | none =>
      match env.createFault with
      | some e =>
          if caughtBy e then
            { escaped := none, returnValue := some false,
              serviceAllocated := true, serviceDeleted := true }
          else
            { escaped := some e, returnValue := none,
              serviceAllocated := true, serviceDeleted := false }
      | none =>
          match env.registerFault with
          | some e =>
              if caughtBy e then
                { escaped := none, returnValue := some false,
                  serviceAllocated := true, serviceDeleted := true }
              else
                { escaped := some e, returnValue := none,
                  serviceAllocated := true, serviceDeleted := false }
          | none =>
              { escaped := none, returnValue := some true,
                serviceAllocated := true, serviceDeleted := false }

/-- C++ member access levels, as far as the claims need them. -/
inductive CxxAccess where
  | priv
  | pub
deriving DecidableEq, Repr

/-- Access level of the `PrivilegeDb` constructor: it is declared in the
`private:` section of the class (`privilege_db.h` lines 65–71). -/
def PrivilegeDb_ctorAccess : CxxAccess := CxxAccess.priv

/-- Access level of `PrivilegeDb::getInstance`: declared in the `public:`
section (`privilege_db.h` line 132). -/
def PrivilegeDb_getInstanceAccess : CxxAccess := CxxAccess.pub

/-- Process-wide state of the lazy singleton: the shared `PrivilegeDb`
instance once it has been constructed. -/
structure ProcessState where
  dbInstance : Option DBState
deriving DecidableEq, Repr

/-- Modelled from the spec: the body of `PrivilegeDb::getInstance` is not
in the sources.  The header documents the class as a singleton
(`initDataCommands` is "designed to be used in the singleton
contructor"), so `getInstance` constructs the instance on first use —
raising the constructor's `IOError` when the backing file is unavailable —
and afterwards always hands back the already-constructed shared
instance. -/
def getInstance (fileOk : Bool) (loaded : DBState) (p : ProcessState) :
    Except ErrKind (ProcessState × DBState) :=
  match p.dbInstance with
  | some db => .ok (p, db)
  | none =>
      match constructPrivilegeDb fileOk loaded with
      | .ok db => .ok ({ dbInstance := some db }, db)
      | .error e => .error e

/-! Helper lemmas shared by the claim theorems. -/

/-- Filtering by a predicate after filtering by its negation yields the
empty list. -/
theorem filter_not_filter_eq_nil {α : Type} (p : α → Bool) (l : List α) :
    (l.filter (fun a => !p a)).filter p = [] := by
  rw [List.filter_filter]
  have h : ∀ a : α, (p a && !p a) = false := by
    intro a
    cases hpa : p a <;> simp
  simp only [h, List.filter_false]

/-- The result of a `SELECT DISTINCT … ORDER BY` query is strictly
sorted. -/
theorem sqlDistinctOrderBy_sorted (l : List String) :
    (sqlDistinctOrderBy l).Sorted (· < ·) := by
  have hs : (l.insertionSort (· ≤ ·)).Sorted (· ≤ ·) :=
    List.sorted_insertionSort _ l
  have hsub := List.dedup_sublist (l.insertionSort (· ≤ ·))
  have hs' : ((l.insertionSort (· ≤ ·)).dedup).Sorted (· ≤ ·) :=
    List.Pairwise.sublist hsub hs
  exact hs'.lt_of_le (List.nodup_dedup _)

/-- The result of a `SELECT DISTINCT … ORDER BY` query has the same
members as the raw column values. -/
theorem sqlDistinctOrderBy_mem (l : List String) (p : String) :
    p ∈ sqlDistinctOrderBy l ↔ p ∈ l := by
  unfold sqlDistinctOrderBy
  rw [List.mem_dedup, List.mem_insertionSort]

/-- After the delete phase, the `(appId, uid)` rows selected by
`GetAppPrivileges` are gone. -/
theorem getAppPrivileges_after_delete (s : DBState) (appId : String) (uid : Nat) :
    GetAppPrivileges (deleteAppPrivilegeRows s appId uid) appId uid = [] := by
  unfold GetAppPrivileges deleteAppPrivilegeRows
  rw [filter_not_filter_eq_nil]
  rfl

/-- After a full replace, the `(appId, uid)` column values selected by
`GetAppPrivileges` are exactly the supplied privilege list. -/
theorem updateAppPrivileges_rows (s : DBState) (appId : String) (uid : Nat)
    (privs : List String) :
    ((UpdateAppPrivileges s appId uid privs).appPrivilegeRows.filter
        (fun r => decide (r.1 = appId ∧ r.2.1 = uid))).map (fun r => r.2.2)
      = privs := by
  unfold UpdateAppPrivileges insertAppPrivilegeRows deleteAppPrivilegeRows
  rw [List.filter_append, filter_not_filter_eq_nil, List.nil_append,
    List.filter_map]
  have hall : (privs.filter
      ((fun r : String × Nat × String => decide (r.1 = appId ∧ r.2.1 = uid)) ∘
        (fun p => (appId, uid, p)))) = privs := by
    apply List.filter_eq_self.mpr
    intro a _
    simp
  rw [hall, List.map_map]
  exact List.map_id privs

/-! Claim theorems. -/

/-- C1: for every `(appId, user)` pair with a committed privilege set, if
`updateAppPrivileges` begins its delete-then-insert sequence inside a
transaction and a fault occurs between the delete phase and the insert
phase, then after rollback the privilege set observable for the pair
equals the previously committed set exactly.  The first conjunct records
that at the fault point the uncommitted in-transaction view really had
lost the pair's rows, and the remaining conjuncts that rollback restores
the committed state and hence the exact committed privilege set. -/
theorem updateAppPrivileges_fault_rollback (c : DbConn) (appId : String)
    (uid : Nat) :
    GetAppPrivileges (applyWrite (fun s => deleteAppPrivilegeRows s appId uid)
        (BeginTransaction c)).observable appId uid = [] ∧
    (RollbackTransaction (applyWrite (fun s => deleteAppPrivilegeRows s appId uid)
        (BeginTransaction c))).observable = c.committed ∧
    GetAppPrivileges (RollbackTransaction
        (applyWrite (fun s => deleteAppPrivilegeRows s appId uid)
          (BeginTransaction c))).observable appId uid
      = GetAppPrivileges c.committed appId uid := by
  refine ⟨?_, rfl, rfl⟩
  exact getAppPrivileges_after_delete c.committed appId uid

/-- C2: for every `appId`, `user` and privilege list (any order, possibly
with duplicates), `updateAppPrivileges` followed by `getAppPrivileges`
returns exactly the elements of the supplied list with duplicates removed,
in lexicographic order: the result is strictly sorted and has the same
members as the input list. -/
theorem updateAppPrivileges_then_get_sorted_unique (s : DBState)
    (appId : String) (uid : Nat) (privs : List String) :
    (GetAppPrivileges (UpdateAppPrivileges s appId uid privs) appId uid).Sorted
        (· < ·) ∧
    ∀ p, p ∈ GetAppPrivileges (UpdateAppPrivileges s appId uid privs) appId uid
        ↔ p ∈ privs := by
  constructor
  · exact sqlDistinctOrderBy_sorted _
  · intro p
    unfold GetAppPrivileges
    rw [updateAppPrivileges_rows, sqlDistinctOrderBy_mem]

/-- C6: calling `removeAppPrivileges` twice in immediate succession raises
no error on the second call (both calls return `ok`), the second call
leaves the state of the first untouched, and afterwards the privilege set
observed via `getAppPrivileges` is empty. -/
theorem removeAppPrivileges_twice_safe_empty (s : DBState) (appId : String)
    (uid : Nat) :
    ∃ s1 s2, RemoveAppPrivileges s appId uid = .ok s1 ∧
      RemoveAppPrivileges s1 appId uid = .ok s2 ∧
      s2 = s1 ∧
      GetAppPrivileges s2 appId uid = [] := by
  refine ⟨deleteAppPrivilegeRows s appId uid,
    deleteAppPrivilegeRows (deleteAppPrivilegeRows s appId uid) appId uid,
    rfl, rfl, ?_, getAppPrivileges_after_delete _ appId uid⟩
  unfold deleteAppPrivilegeRows
  rw [List.filter_filter]
  have h : ∀ r : String × Nat × String,
      ((!decide (r.1 = appId ∧ r.2.1 = uid)) &&
        (!decide (r.1 = appId ∧ r.2.1 = uid)))
      = (!decide (r.1 = appId ∧ r.2.1 = uid)) := by
    intro r
    exact Bool.and_self _
  simp only [h]

/-- C3 counterexample: when the application already exists for the user,
`addApplication` does fail, but with `InternalError` — the only
post-construction error kind declared by `privilege_db.h` — and not with
`ConstraintError` as the claim states. -/
theorem addApplication_duplicate_not_constraintError :
    AddApplication ⟨[], [("app1", "pkgX", 0)], []⟩ "app1" "pkg1" 0
        = .error ErrKind.InternalError ∧
    ErrKind.InternalError ≠ ErrKind.ConstraintError := by
  constructor
  · rfl
  · decide

/-- C3 (amended): if an application named `appId` already exists for the
user then `addApplication(appId, packageId, user)` fails with
`InternalError` (the store's only post-construction error kind); otherwise
it inserts the application-to-package link. -/
theorem addApplication_duplicate_internalError (s : DBState)
    (appId pkgId : String) (uid : Nat) :
    (appExists s appId uid = true →
      AddApplication s appId pkgId uid = .error ErrKind.InternalError) ∧
    (appExists s appId uid = false →
      AddApplication s appId pkgId uid =
        .ok { s with appPkgRows := s.appPkgRows ++ [(appId, pkgId, uid)] }) := by
  constructor <;> intro h <;> simp [AddApplication, h]

/-- Witness for C3's amended theorem: both branches at concrete inputs. -/
theorem addApplication_duplicate_internalError_witness :
    AddApplication ⟨[], [("app1", "pkgX", 0)], []⟩ "app1" "pkg1" 0
        = .error ErrKind.InternalError ∧
    AddApplication ⟨[], [], []⟩ "app1" "pkg1" 0
        = .ok ⟨[], [("app1", "pkg1", 0)], []⟩ :=
  ⟨(addApplication_duplicate_internalError ⟨[], [("app1", "pkgX", 0)], []⟩
      "app1" "pkg1" 0).1 rfl,
   (addApplication_duplicate_internalError ⟨[], [], []⟩ "app1" "pkg1" 0).2 rfl⟩

/-- C4: for an existing application (the row found by the delete phase is
`(appId, pkg, uid)`), `removeApplication` deletes that application — no
`(appId, ·, uid)` row survives — and returns `true` exactly when some
other application belonging to the same package still exists for some
user. -/
theorem removeApplication_packageStillExists (s : DBState) (appId : String)
    (uid : Nat) (pkg : String)
    (h : s.appPkgRows.find? (fun r => decide (r.1 = appId ∧ r.2.2 = uid))
        = some (appId, pkg, uid)) :
    (∀ p, (appId, p, uid) ∉ (RemoveApplication s appId uid).1.appPkgRows) ∧
    ((RemoveApplication s appId uid).2 = true ↔
      ∃ a u, (a, pkg, u) ∈ (RemoveApplication s appId uid).1.appPkgRows ∧
        (a ≠ appId ∨ u ≠ uid)) := by
  have hred : RemoveApplication s appId uid =
      ({ s with appPkgRows :=
          s.appPkgRows.filter (fun r => !decide (r.1 = appId ∧ r.2.2 = uid)) },
        PkgIdExists { s with appPkgRows :=
          s.appPkgRows.filter (fun r => !decide (r.1 = appId ∧ r.2.2 = uid)) } pkg) := by
    unfold RemoveApplication
    rw [h]
    rfl
  rw [hred]
  constructor
  · intro p hp
    rw [List.mem_filter] at hp
    simp at hp
  · rw [PkgIdExists]
    rw [List.any_eq_true]
    constructor
    · rintro ⟨r, hr, hrpkg⟩
      have hmem := hr
      rw [List.mem_filter] at hr
      refine ⟨r.1, r.2.2, ?_, ?_⟩
      · have : (r.1, pkg, r.2.2) = r := by
          simp at hrpkg
          rw [← hrpkg]
        rw [this]
        exact hmem
      · have hside := hr.2
        simp only [Bool.not_eq_true', decide_eq_false_iff_not, not_and] at hside
        by_cases ha : r.1 = appId
        · exact Or.inr (hside ha)
        · exact Or.inl ha
    · rintro ⟨a, u, hmem, _⟩
      exact ⟨(a, pkg, u), hmem, by simp⟩

/-- Witness for C4: removing `app1` from a two-application package leaves
the package alive, and the theorem's equivalence certifies it. -/
theorem removeApplication_packageStillExists_witness :
    (RemoveApplication ⟨[], [("app1", "pkg1", 0), ("app2", "pkg1", 5)], []⟩
        "app1" 0).2 = true :=
  (removeApplication_packageStillExists
      ⟨[], [("app1", "pkg1", 0), ("app2", "pkg1", 5)], []⟩ "app1" 0 "pkg1"
      rfl).2.mpr
    ⟨"app2", 5, by decide, Or.inl (by decide)⟩

/-- C5: the header's `@exception` documentation gives `IOError` to the
constructor and to no other method, and gives every other method exactly
`InternalError`; operationally, construction fails with `IOError` when the
backing file is unavailable, while the post-construction operations of the
model fail only with `InternalError` or succeed. -/
theorem privilegeDb_error_taxonomy :
    (∀ m : Method, ErrKind.IOError ∈ declaredExceptions m ↔ m = Method.ctor) ∧
    (∀ m : Method, m ≠ Method.ctor →
        declaredExceptions m = [ErrKind.InternalError]) ∧
    (∀ (fileOk : Bool) (loaded : DBState) (e : ErrKind),
        constructPrivilegeDb fileOk loaded = .error e → e = ErrKind.IOError) ∧
    (∀ (s : DBState) (appId pkgId : String) (uid : Nat) (e : ErrKind),
        AddApplication s appId pkgId uid = .error e →
          e = ErrKind.InternalError) ∧
    (∀ (s : DBState) (appId : String) (uid : Nat),
        RemoveAppPrivileges s appId uid =
          .ok (deleteAppPrivilegeRows s appId uid)) := by
  refine ⟨by decide, by decide, ?_, ?_, fun s appId uid => rfl⟩
  · intro fileOk loaded e h
    cases fileOk <;> simp [constructPrivilegeDb] at h
    exact h.symm
  · intro s appId pkgId uid e h
    by_cases hex : appExists s appId uid <;> simp [AddApplication, hex] at h
    exact h.symm

/-- Witness for C5: each conditional part applied at a concrete input. -/
theorem privilegeDb_error_taxonomy_witness :
    declaredExceptions Method.addApplication = [ErrKind.InternalError] ∧
    ErrKind.IOError = ErrKind.IOError ∧
    ErrKind.InternalError = ErrKind.InternalError :=
  ⟨privilegeDb_error_taxonomy.2.1 Method.addApplication (by decide),
   privilegeDb_error_taxonomy.2.2.1 false ⟨[], [], []⟩ ErrKind.IOError rfl,
   privilegeDb_error_taxonomy.2.2.2.1 ⟨[], [("a", "p", 0)], []⟩ "a" "q" 0
     ErrKind.InternalError rfl⟩

/-- C7 counterexample: `app1` is not present for user 0, yet after
`addApplication("app1", "pkg1", 0)` the lookup `getAppPkgId("app1")` —
whose query filters by application name only — answers with the package
of user 2's older `app1` row, not with `pkg1`. -/
theorem addApplication_then_getAppPkgId_cross_user :
    appExists ⟨[], [("app1", "pkg2", 2)], []⟩ "app1" 0 = false ∧
    AddApplication ⟨[], [("app1", "pkg2", 2)], []⟩ "app1" "pkg1" 0
        = .ok ⟨[], [("app1", "pkg2", 2), ("app1", "pkg1", 0)], []⟩ ∧
    GetAppPkgId ⟨[], [("app1", "pkg2", 2), ("app1", "pkg1", 0)], []⟩ "app1"
        = some "pkg2" ∧
    some "pkg2" ≠ some "pkg1" := by
  refine ⟨rfl, rfl, rfl, by decide⟩

/-- C7 (amended): for every `appId` not present for *any* user,
`getAppPkgId` reports not-found as a plain `none` (a normal outcome),
`addApplication` succeeds, and the subsequent `getAppPkgId(appId)` returns
the inserted `packageId`. -/
theorem addApplication_then_getAppPkgId_fresh (s : DBState)
    (appId pkgId : String) (uid : Nat)
    (hfresh : ∀ r ∈ s.appPkgRows, r.1 ≠ appId) :
    GetAppPkgId s appId = none ∧
    AddApplication s appId pkgId uid =
      .ok { s with appPkgRows := s.appPkgRows ++ [(appId, pkgId, uid)] } ∧
    GetAppPkgId { s with appPkgRows := s.appPkgRows ++ [(appId, pkgId, uid)] }
        appId = some pkgId := by
  have hnone : s.appPkgRows.find? (fun r => decide (r.1 = appId)) = none := by
    rw [List.find?_eq_none]
    intro r hr
    simp [hfresh r hr]
  refine ⟨?_, ?_, ?_⟩
  · rw [GetAppPkgId, hnone]
    rfl
  · have hex : appExists s appId uid = false := by
      rw [appExists]
      rw [List.any_eq_false]
      intro r hr
      simp [hfresh r hr]
    simp [AddApplication, hex]
  · rw [GetAppPkgId]
    rw [List.find?_append, hnone]
    simp

/-- Witness for C7's amended theorem at the empty store. -/
theorem addApplication_then_getAppPkgId_fresh_witness :
    GetAppPkgId ⟨[], [], []⟩ "app1" = none ∧
    AddApplication ⟨[], [], []⟩ "app1" "pkg1" 0
        = .ok ⟨[], [("app1", "pkg1", 0)], []⟩ ∧
    GetAppPkgId ⟨[], [("app1", "pkg1", 0)], []⟩ "app1" = some "pkg1" :=
  addApplication_then_getAppPkgId_fresh ⟨[], [], []⟩ "app1" "pkg1" 0
    (by intro r hr; cases hr)

/-- C8: `main` exits with code 0 exactly on clean shutdown (lock acquired,
signal mask installed, service registered, `MainLoop` run to completion),
and with a non-zero code when the exclusive startup lock cannot be
acquired or the service cannot be registered. -/
theorem main_exit_codes :
    (∀ env : MainEnv, mainExitCode env = 0 ↔
        (env.lockOk = true ∧ env.sigmaskOk = true ∧ env.registerOk = true)) ∧
    (∀ env : MainEnv, (env.lockOk = false ∨ env.registerOk = false) →
        mainExitCode env ≠ 0) := by
  constructor <;> decide

/-- Witness for C8: a failed lock acquisition yields a non-zero exit. -/
theorem main_exit_codes_witness :
    mainExitCode ⟨false, true, true⟩ ≠ 0 :=
  main_exit_codes.2 ⟨false, true, true⟩ (Or.inl rfl)

/-- C9: whichever step of `registerSocketService` throws and whichever of
the three exception kinds it throws, no exception escapes the function;
when some step throws, the function returns `false` and any allocated
service object has been deleted. -/
theorem registerSocketService_catches_everything :
    ∀ env : RegisterEnv,
      (registerSocketService env).escaped = none ∧
      ((env.ctorFault ≠ none ∨ env.createFault ≠ none ∨
          env.registerFault ≠ none) →
        (registerSocketService env).returnValue = some false ∧
        ((registerSocketService env).serviceAllocated = true →
          (registerSocketService env).serviceDeleted = true)) := by
  decide

/-- Witness for C9: a `std::exception` thrown by `Create()` is caught, the
allocated service is deleted and `false` is returned. -/
theorem registerSocketService_catches_everything_witness :
    (registerSocketService ⟨none, some ExnKind.stdException, none⟩).returnValue
        = some false ∧
    ((registerSocketService
        ⟨none, some ExnKind.stdException, none⟩).serviceAllocated = true →
      (registerSocketService
        ⟨none, some ExnKind.stdException, none⟩).serviceDeleted = true) :=
  (registerSocketService_catches_everything
      ⟨none, some ExnKind.stdException, none⟩).2
    (Or.inr (Or.inl (by decide)))

/-- C10: the `PrivilegeDb` constructor is private and `getInstance` is the
public access path; a successful `getInstance` hands back exactly the
instance stored in the process state, every later call returns that same
instance unchanged, and a construction-time `IOError` can arise only on a
call made before the instance exists — i.e. at the first `getInstance`
call. -/
theorem getInstance_single_shared_instance :
    PrivilegeDb_ctorAccess = CxxAccess.priv ∧
    PrivilegeDb_getInstanceAccess = CxxAccess.pub ∧
    (∀ (fileOk : Bool) (loaded : DBState) (p p' : ProcessState) (db : DBState),
        getInstance fileOk loaded p = .ok (p', db) →
          p'.dbInstance = some db ∧
          ∀ (fileOk' : Bool) (loaded' : DBState),
            getInstance fileOk' loaded' p' = .ok (p', db)) ∧
    (∀ (fileOk : Bool) (loaded : DBState) (p : ProcessState) (e : ErrKind),
        getInstance fileOk loaded p = .error e →
          p.dbInstance = none ∧ e = ErrKind.IOError) := by
  refine ⟨rfl, rfl, ?_, ?_⟩
  · intro fileOk loaded p p' db h
    cases hp : p.dbInstance with
    | some db0 =>
        rw [getInstance, hp] at h
        have hp' : p' = p ∧ db = db0 := by
          cases h
          exact ⟨rfl, rfl⟩
        obtain ⟨rfl, rfl⟩ := hp'
        refine ⟨hp, ?_⟩
        intro fileOk' loaded'
        rw [getInstance, hp]
    | none =>
        rw [getInstance, hp] at h
        cases fileOk with
        | true =>
            simp [constructPrivilegeDb] at h
            obtain ⟨rfl, rfl⟩ := h
            refine ⟨rfl, ?_⟩
            intro fileOk' loaded'
            rw [getInstance]
        | false =>
            simp [constructPrivilegeDb] at h
  · intro fileOk loaded p e h
    cases hp : p.dbInstance with
    | some db0 => rw [getInstance, hp] at h; cases h
    | none =>
        rw [getInstance, hp] at h
        cases fileOk with
        | true => simp [constructPrivilegeDb] at h
        | false =>
            simp [constructPrivilegeDb] at h
            exact ⟨rfl, h.symm⟩

/-- Witness for C10: the first call on an instanceless process state
constructs the store, and the condition of the third conjunct is
discharged at that concrete call. -/
theorem getInstance_single_shared_instance_witness :
    ProcessState.dbInstance ⟨some ⟨[], [], []⟩⟩ = some ⟨[], [], []⟩ ∧
    ∀ (fileOk' : Bool) (loaded' : DBState),
      getInstance fileOk' loaded' ⟨some ⟨[], [], []⟩⟩ =
        .ok (⟨some ⟨[], [], []⟩⟩, ⟨[], [], []⟩) :=
  getInstance_single_shared_instance.2.2.1 true ⟨[], [], []⟩ ⟨none⟩
    ⟨some ⟨[], [], []⟩⟩ ⟨[], [], []⟩ rfl
